import Mathlib

/-!
Verification of the libbitcoin-system SHA hashing core against its
natural-language specification.

The development shallowly embeds:

* the SHA-NI native compression path of
  src/src/hash/vectorization/sha256_2_shani.cpp (function hash_shani and its
  helpers round / shift_message / shift_messages / shuffle / unshuffle,
  together with the semantics of the Intel intrinsics they invoke);
* the capability / lane constants of
  src/include/bitcoin/system/hash/sha/algorithm.hpp (is_valid_lanes,
  min_lanes, count_bits, limit_bits, limit_bytes);
* the scalar, vector, streaming, double-hash and Merkle paths of the
  algorithm class.  Their .ipp implementation files are not part of the
  source sample (only the declarations in algorithm.hpp are), so those
  definitions are modelled from the specification, as indicated by their
  doc comments.

Machine words are natural numbers reduced modulo 2^32 at every arithmetic
step, exactly where the C++ uint32_t arithmetic overflows.
-/

namespace LibbitcoinSha

set_option maxRecDepth 10000

set_option maxHeartbeats 4000000

/-- Modulus of a 32-bit machine word. -/
def M32 : Nat := 4294967296

/-- Reduction of a natural number to a 32-bit word, the effect of C++
uint32_t wraparound. -/
def wrap (x : Nat) : Nat := x % M32

/-- Right rotation of a 32-bit word by n bits. -/
def rotr (n x : Nat) : Nat :=
  ((x % M32) >>> n ||| (x % M32) <<< (32 - n)) % M32

/-- Bitwise complement of a 32-bit word. -/
def notw (x : Nat) : Nat := (x % M32) ^^^ (M32 - 1)

/-- Modelled from the spec: the standard SHA-2 choice function used by the
scalar round (algorithm_functions.ipp is absent from the source sample). -/
def choice (x y z : Nat) : Nat := (x &&& y) ^^^ (notw x &&& z)

/-- Modelled from the spec: the standard SHA-2 majority function. -/
def majority (x y z : Nat) : Nat := (x &&& y) ^^^ (x &&& z) ^^^ (y &&& z)

/-- Modelled from the spec: the big Sigma0 state mixing function of SHA-256. -/
def bSigma0 (x : Nat) : Nat := rotr 2 x ^^^ rotr 13 x ^^^ rotr 22 x

/-- Modelled from the spec: the big Sigma1 state mixing function of SHA-256. -/
def bSigma1 (x : Nat) : Nat := rotr 6 x ^^^ rotr 11 x ^^^ rotr 25 x

/-- Modelled from the spec: the small sigma0 schedule expansion function. -/
def sigma0 (x : Nat) : Nat := rotr 7 x ^^^ rotr 18 x ^^^ ((x % M32) >>> 3)

/-- Modelled from the spec: the small sigma1 schedule expansion function. -/
def sigma1 (x : Nat) : Nat := rotr 17 x ^^^ rotr 19 x ^^^ ((x % M32) >>> 10)

/-- The eight-word SHA-256 state (state_t in algorithm.hpp). -/
@[ext]
structure State8 where
  a : Nat
  b : Nat
  c : Nat
  d : Nat
  e : Nat
  f : Nat
  g : Nat
  h : Nat
deriving Repr, DecidableEq

/-- The SHA-256 initial state, as listed (little endian, with indices) in the
initial0/initial1 constants of sha256_2_shani.cpp. -/
def initialState : State8 :=
  ⟨1779033703, 3144134277, 1013904242, 2773480762,
   1359893119, 2600822924, 528734635, 1541459225⟩

/-! ## Accumulator counter constants (algorithm.hpp lines 84-90, claim C10) -/

/-- Source algorithm.hpp line 84: count_bits = block_words * word_bytes. -/
def count_bits (block_words word_bytes : Nat) : Nat := block_words * word_bytes

/-- Source algorithm.hpp line 86: count_t = unsigned_exact_type of
bytes(count_bits) bytes, so its maximum value is 2 ^ count_bits - 1. -/
def count_t_max (block_words word_bytes : Nat) : Nat :=
  2 ^ count_bits block_words word_bytes - 1

/-- Source algorithm.hpp line 89: limit_bits = maximum of count_t minus
count_bits. -/
def limit_bits (block_words word_bytes : Nat) : Nat :=
  count_t_max block_words word_bytes - count_bits block_words word_bytes

/-- Source algorithm.hpp line 90: limit_bytes = to_floored_bytes(limit_bits),
the floored byte equivalent of limit_bits. -/
def limit_bytes (block_words word_bytes : Nat) : Nat :=
  limit_bits block_words word_bytes / 8

/-! ## Vector lane constants (algorithm.hpp lines 221-223 and 347-356,
claim C9) -/

/-- Source algorithm.hpp lines 221-223: the extended integer lane counts
accepted by the vector engine. -/
def is_valid_lanes (lanes : Nat) : Bool :=
  lanes == 16 || lanes == 8 || lanes == 4 || lanes == 2

/-- Source algorithm.hpp lines 353-356: min_lanes tests use_x128 first, then
use_x256, then use_x512, and divides the selected register byte width
(bytes of 128 / 256 / 512 bits) by the word byte width. -/
def min_lanes (x128 x256 x512 : Bool) (word_bytes : Nat) : Nat :=
  (if x128 then 16 else if x256 then 32 else if x512 then 64 else 0) /
    word_bytes

/-- Modelled from the spec, claim C9 as stated: the lane threshold the claim
describes, determined by the widest enabled vector capability. -/
def min_lanes_by_widest (x128 x256 x512 : Bool) (word_bytes : Nat) : Nat :=
  (if x512 then 64 else if x256 then 32 else if x128 then 16 else 0) /
    word_bytes

/-- Modelled from the spec as amended by the counterexample: the lane
threshold determined by the narrowest enabled vector capability. -/
def min_lanes_by_narrowest (x128 x256 x512 : Bool) (word_bytes : Nat) : Nat :=
  (if x128 then 16 else if x256 then 32 else if x512 then 64 else 0) /
    word_bytes

/-! ## Native state layout permutation (sha256_2_shani.cpp lines 147-161,
claim C8) -/

/-- A 128-bit SSE register as four 32-bit lanes; x0 is bits 31:0 (the lane a
little-endian load fills from the first four bytes). -/
@[ext]
structure V4 where
  x0 : Nat
  x1 : Nat
  x2 : Nat
  x3 : Nat
deriving Repr, DecidableEq

/-- Semantics of _mm_shuffle_epi32 with immediate 0xb1: result lane i takes
source lane (1, 0, 3, 2). -/
def shuf_b1 (v : V4) : V4 := ⟨v.x1, v.x0, v.x3, v.x2⟩

/-- Semantics of _mm_shuffle_epi32 with immediate 0x1b: full lane reversal. -/
def shuf_1b (v : V4) : V4 := ⟨v.x3, v.x2, v.x1, v.x0⟩

/-- Semantics of _mm_shuffle_epi32 with immediate 0x0e: the high 64 bits move
to the low 64 bits (lanes 2 and 3 of the source land in lanes 0 and 1). -/
def shuf_0e (v : V4) : V4 := ⟨v.x2, v.x3, v.x0, v.x0⟩

/-- Semantics of align_right with a byte shift of 8 as used by the source
(_mm_alignr_epi8(a, b, 8)): the concatenation a:b shifted right one half
register, so lanes (b2, b3, a0, a1). -/
def align_right8 (a b : V4) : V4 := ⟨b.x2, b.x3, a.x0, a.x1⟩

/-- Semantics of align_right with a byte shift of 4 as used by shift_message
(_mm_alignr_epi8(a, b, 4)): lanes (b1, b2, b3, a0). -/
def align_right4 (a b : V4) : V4 := ⟨b.x1, b.x2, b.x3, a.x0⟩

/-- Semantics of blend with immediate 15 as used by the source: the low two
lanes come from the first argument, the high two lanes from the second. -/
def blend15 (a b : V4) : V4 := ⟨a.x0, a.x1, b.x2, b.x3⟩

/-- Source sha256_2_shani.cpp lines 147-153: the shuffle applied to the two
state halves on entry to the native call. -/
def shuffle (p : V4 × V4) : V4 × V4 :=
  let t1 := shuf_b1 p.1
  let t2 := shuf_1b p.2
  (align_right8 t1 t2, blend15 t2 t1)

/-- Source sha256_2_shani.cpp lines 155-161: the unshuffle applied to the two
state halves on exit from the native call. -/
def unshuffle (p : V4 × V4) : V4 × V4 :=
  let t1 := shuf_1b p.1
  let t2 := shuf_b1 p.2
  (blend15 t1 t2, align_right8 t2 t1)

/-! ## Scalar engine (spec-modelled: the algorithm_*.ipp implementation
files are absent from the source sample; declarations are algorithm.hpp
lines 119-194, constants appear in sha256_2_shani.cpp) -/

/-- Round count of the 256-bit variant (K::rounds). -/
def rounds : Nat := 64

/-- The 64 SHA-256 round constants; the same values appear packed in pairs
in the round calls of hash_shani (sha256_2_shani.cpp lines 194-228). -/
def Klist : List Nat :=
  [1116352408, 1899447441, 3049323471, 3921009573,
   961987163, 1508970993, 2453635748, 2870763221,
   3624381080, 310598401, 607225278, 1426881987,
   1925078388, 2162078206, 2614888103, 3248222580,
   3835390401, 4022224774, 264347078, 604807628,
   770255983, 1249150122, 1555081692, 1996064986,
   2554220882, 2821834349, 2952996808, 3210313671,
   3336571891, 3584528711, 113926993, 338241895,
   666307205, 773529912, 1294757372, 1396182291,
   1695183700, 1986661051, 2177026350, 2456956037,
   2730485921, 2820302411, 3259730800, 3345764771,
   3516065817, 3600352804, 4094571909, 275423344,
   430227734, 506948616, 659060556, 883997877,
   958139571, 1322822218, 1537002063, 1747873779,
   1955562222, 2024104815, 2227730452, 2361852424,
   2428436474, 2756734187, 3204031479, 3329325298]

/-- The sixteen 32-bit input words of one block (words_t). -/
@[ext]
structure W16 where
  w0 : Nat
  w1 : Nat
  w2 : Nat
  w3 : Nat
  w4 : Nat
  w5 : Nat
  w6 : Nat
  w7 : Nat
  w8 : Nat
  w9 : Nat
  w10 : Nat
  w11 : Nat
  w12 : Nat
  w13 : Nat
  w14 : Nat
  w15 : Nat
deriving Repr, DecidableEq

/-- The sixteen input words as a reversed list (most recent schedule word
first), the accumulator shape of the schedule expansion below. -/
def ws0 (b : W16) : List Nat :=
  [b.w15, b.w14, b.w13, b.w12, b.w11, b.w10, b.w9, b.w8,
   b.w7, b.w6, b.w5, b.w4, b.w3, b.w2, b.w1, b.w0]

/-- Modelled from the spec: one step of the message schedule expansion
recurrence, prepending W(t) = sigma1 W(t-2) + W(t-7) + sigma0 W(t-15)
+ W(t-16) to the reversed list of earlier schedule words. -/
def sstep (l : List Nat) : List Nat :=
  wrap (sigma1 (l.getD 1 0) + l.getD 6 0 + sigma0 (l.getD 14 0) +
    l.getD 15 0) :: l

/-- The reversed schedule after n expansion steps. -/
def schedRev (b : W16) : Nat → List Nat
  | 0 => ws0 b
  | n + 1 => sstep (schedRev b n)

/-- Modelled from the spec: schedule word t of the fully expanded 64-word
message schedule of a block. -/
def Wsched (b : W16) (t : Nat) : Nat := (schedRev b 48).getD (63 - t) 0

/-- Scheduled buffer entry t with its round constant added (the source
schedule() runs the expansion and then add_k). -/
def wkEntry (b : W16) (t : Nat) : Nat := wrap (Wsched b t + Klist.getD t 0)

/-- The fully scheduled buffer of a block: 64 words, round constants
included. -/
def wkList (b : W16) : List Nat := (List.range rounds).map (wkEntry b)

/-- Modelled from the spec: one scalar round. T1 folds the low state half
through bSigma1 and choice together with the buffer word (schedule word
plus constant), T2 folds the high half through bSigma0 and majority; the
working registers then shift by one. -/
def round1 (s : State8) (wk : Nat) : State8 :=
  let t1 := wrap (s.h + bSigma1 s.e + choice s.e s.f s.g + wk)
  let t2 := wrap (bSigma0 s.a + majority s.a s.b s.c)
  ⟨wrap (t1 + t2), s.a, s.b, s.c, wrap (s.d + t1), s.e, s.f, s.g⟩

/-- Modelled from the spec: the Davies-Meyer feed forward, adding two states
word by word. -/
def summarize (x y : State8) : State8 :=
  ⟨wrap (x.a + y.a), wrap (x.b + y.b), wrap (x.c + y.c), wrap (x.d + y.d),
   wrap (x.e + y.e), wrap (x.f + y.f), wrap (x.g + y.g), wrap (x.h + y.h)⟩

/-- Modelled from the spec: scalar compression. The scheduled buffer drives
one round per entry and the pre-round state is added back afterwards. -/
def compress (s : State8) (buf : List Nat) : State8 :=
  summarize (buf.foldl round1 s) s

/-- Modelled from the spec, in the words of claim C3: a compression that
applies exactly a given number of round transformations (one buffer entry
each) and then adds the pre-round state to the post-round state. -/
def applyRounds : Nat → State8 → List Nat → State8
  | 0, s, _ => s
  | _ + 1, s, [] => s
  | n + 1, s, w :: ws => applyRounds n (round1 s w) ws

/-- Modelled from the spec, claim C3 as stated: exactly rounds round
transformations followed by the Davies-Meyer feed forward. -/
def specCompress (s : State8) (buf : List Nat) : State8 :=
  summarize (applyRounds rounds s buf) s

/-! ## Byte parsing and serialization (endian helpers are external
collaborators of the core; both engines consume blocks as big-endian
32-bit words per FIPS 180-4) -/

/-- Big-endian 32-bit word read from four bytes of a byte list. -/
def be32at (bs : List Nat) (i : Nat) : Nat :=
  bs.getD i 0 % 256 * 16777216 + bs.getD (i + 1) 0 % 256 * 65536 +
    bs.getD (i + 2) 0 % 256 * 256 + bs.getD (i + 3) 0 % 256

/-- The sixteen big-endian words of a 64-byte block. -/
def toW16 (blk : List Nat) : W16 :=
  ⟨be32at blk 0, be32at blk 4, be32at blk 8, be32at blk 12,
   be32at blk 16, be32at blk 20, be32at blk 24, be32at blk 28,
   be32at blk 32, be32at blk 36, be32at blk 40, be32at blk 44,
   be32at blk 48, be32at blk 52, be32at blk 56, be32at blk 60⟩

/-- Big-endian serialization of the state into the 32 digest bytes. -/
def output (s : State8) : List Nat :=
  [s.a / 16777216 % 256, s.a / 65536 % 256, s.a / 256 % 256, s.a % 256,
   s.b / 16777216 % 256, s.b / 65536 % 256, s.b / 256 % 256, s.b % 256,
   s.c / 16777216 % 256, s.c / 65536 % 256, s.c / 256 % 256, s.c % 256,
   s.d / 16777216 % 256, s.d / 65536 % 256, s.d / 256 % 256, s.d % 256,
   s.e / 16777216 % 256, s.e / 65536 % 256, s.e / 256 % 256, s.e % 256,
   s.f / 16777216 % 256, s.f / 65536 % 256, s.f / 256 % 256, s.f % 256,
   s.g / 16777216 % 256, s.g / 65536 % 256, s.g / 256 % 256, s.g % 256,
   s.h / 16777216 % 256, s.h / 65536 % 256, s.h / 256 % 256, s.h % 256]

/-! ## Native engine intrinsics (semantics of the Intel SHA extension
instructions invoked by sha256_2_shani.cpp, per the Intel SHA extensions
specification; the intrinsics themselves are external collaborators) -/

/-- Semantics of _mm_sha256rnds2_epu32: two SHA-256 rounds. SRC1 (first
argument) carries (H, G, D, C) in lanes x0..x3, SRC2 carries (F, E, B, A),
the low two lanes of the third argument carry the two round constant plus
schedule words; the destination carries the advanced (F, E, B, A). -/
def sha256rnds2 (a b k : V4) : V4 :=
  let A0 := b.x3
  let B0 := b.x2
  let E0 := b.x1
  let F0 := b.x0
  let C0 := a.x3
  let D0 := a.x2
  let G0 := a.x1
  let H0 := a.x0
  let A1 := wrap (choice E0 F0 G0 + bSigma1 E0 + k.x0 + H0 +
    majority A0 B0 C0 + bSigma0 A0)
  let E1 := wrap (choice E0 F0 G0 + bSigma1 E0 + k.x0 + H0 + D0)
  let A2 := wrap (choice E1 E0 F0 + bSigma1 E1 + k.x1 + G0 +
    majority A1 A0 B0 + bSigma0 A1)
  let E2 := wrap (choice E1 E0 F0 + bSigma1 E1 + k.x1 + G0 + C0)
  ⟨E1, E2, A1, A2⟩

/-- Semantics of _mm_sha256msg1_epu32: each lane receives W(i) plus
sigma0 of W(i+1), the fourth successor word coming from the low lane of
the second argument. -/
def sha256msg1 (a b : V4) : V4 :=
  ⟨wrap (a.x0 + sigma0 a.x1), wrap (a.x1 + sigma0 a.x2),
   wrap (a.x2 + sigma0 a.x3), wrap (a.x3 + sigma0 b.x0)⟩

/-- Semantics of _mm_sha256msg2_epu32: finishes four schedule words by
adding sigma1 of the word two back; the upper two lanes chain on the lower
two results. -/
def sha256msg2 (a b : V4) : V4 :=
  let y0 := wrap (a.x0 + sigma1 b.x2)
  let y1 := wrap (a.x1 + sigma1 b.x3)
  let y2 := wrap (a.x2 + sigma1 y0)
  let y3 := wrap (a.x3 + sigma1 y1)
  ⟨y0, y1, y2, y3⟩

/-- Semantics of set(k1, k0) (_mm_set_epi64x): the 64-bit value k0 fills
lanes 0 and 1, k1 fills lanes 2 and 3. -/
def set64 (k1 k0 : Nat) : V4 :=
  ⟨k0 % 4294967296, k0 / 4294967296 % 4294967296,
   k1 % 4294967296, k1 / 4294967296 % 4294967296⟩

/-- Lane-wise 32-bit addition (the sum helper of the source). -/
def vsum (a b : V4) : V4 :=
  ⟨wrap (a.x0 + b.x0), wrap (a.x1 + b.x1),
   wrap (a.x2 + b.x2), wrap (a.x3 + b.x3)⟩

/-! ## Native engine (sha256_2_shani.cpp lines 105-244) -/

/-- Source sha256_2_shani.cpp lines 114-121: the round helper taking a
message register; the schedule sum m + k feeds two rnds2 issues, the second
consuming the high half of the constant register. -/
def roundM (s0 s1 m : V4) (k1 k0 : Nat) : V4 × V4 :=
  let value := vsum m (set64 k1 k0)
  let s1n := sha256rnds2 s1 s0 value
  let s0n := sha256rnds2 s0 s1n (shuf_0e value)
  (s0n, s1n)

/-- Source sha256_2_shani.cpp lines 123-126: the two argument
shift_message, _mm_sha256msg1_epu32 of the register being advanced and its
successor. -/
def shift_message1 (out m : V4) : V4 := sha256msg1 out m

/-- Source sha256_2_shani.cpp lines 128-132: the three argument
shift_message; out accumulates the W(t-7) window via align_right of four
bytes and is finished by _mm_sha256msg2_epu32. -/
def shift_message2 (m0v m1v out : V4) : V4 :=
  sha256msg2 (vsum out (align_right4 m1v m0v)) m1v

/-- Source sha256_2_shani.cpp lines 79-83: load of 16 block bytes with the
byte-swapping mask, yielding four big-endian words in lanes 0..3. -/
def loadBE (blk : List Nat) (i : Nat) : V4 :=
  ⟨be32at blk i, be32at blk (i + 4), be32at blk (i + 8), be32at blk (i + 12)⟩

/-- Message register m0 as loaded (block bytes 0-15). -/
def nm0 (blk : List Nat) : V4 := loadBE blk 0

/-- Message register m1 as loaded (block bytes 16-31). -/
def nm1 (blk : List Nat) : V4 := loadBE blk 16

/-- Message register m2 as loaded (block bytes 32-47). -/
def nm2 (blk : List Nat) : V4 := loadBE blk 32

/-- Message register m3 as loaded (block bytes 48-63). -/
def nm3 (blk : List Nat) : V4 := loadBE blk 48

/-- m0 after shift_message(m0, m1) (line 197). -/
def nm0b (blk : List Nat) : V4 := shift_message1 (nm0 blk) (nm1 blk)

/-- m1 after shift_message(m1, m2) (line 200). -/
def nm1b (blk : List Nat) : V4 := shift_message1 (nm1 blk) (nm2 blk)

/-- m0 after shift_messages(m2, m3, m0) (line 205): schedule words 16-19. -/
def nm0c (blk : List Nat) : V4 :=
  shift_message2 (nm2 blk) (nm3 blk) (nm0b blk)

/-- m2 after shift_messages(m2, m3, m0) (line 205). -/
def nm2b (blk : List Nat) : V4 := shift_message1 (nm2 blk) (nm3 blk)

/-- m1 after shift_messages(m3, m0, m1) (line 207): schedule words 20-23. -/
def nm1c (blk : List Nat) : V4 :=
  shift_message2 (nm3 blk) (nm0c blk) (nm1b blk)

/-- m3 after shift_messages(m3, m0, m1) (line 207). -/
def nm3b (blk : List Nat) : V4 := shift_message1 (nm3 blk) (nm0c blk)

/-- m2 after shift_messages(m0, m1, m2) (line 209): schedule words 24-27. -/
def nm2c (blk : List Nat) : V4 :=
  shift_message2 (nm0c blk) (nm1c blk) (nm2b blk)

/-- m0 after shift_messages(m0, m1, m2) (line 209). -/
def nm0d (blk : List Nat) : V4 := shift_message1 (nm0c blk) (nm1c blk)

/-- m3 after shift_messages(m1, m2, m3) (line 211): schedule words 28-31. -/
def nm3c (blk : List Nat) : V4 :=
  shift_message2 (nm1c blk) (nm2c blk) (nm3b blk)

/-- m1 after shift_messages(m1, m2, m3) (line 211). -/
def nm1d (blk : List Nat) : V4 := shift_message1 (nm1c blk) (nm2c blk)

/-- m0 after shift_messages(m2, m3, m0) (line 213): schedule words 32-35. -/
def nm0e (blk : List Nat) : V4 :=
  shift_message2 (nm2c blk) (nm3c blk) (nm0d blk)

/-- m2 after shift_messages(m2, m3, m0) (line 213). -/
def nm2d (blk : List Nat) : V4 := shift_message1 (nm2c blk) (nm3c blk)

/-- m1 after shift_messages(m3, m0, m1) (line 215): schedule words 36-39. -/
def nm1e (blk : List Nat) : V4 :=
  shift_message2 (nm3c blk) (nm0e blk) (nm1d blk)

/-- m3 after shift_messages(m3, m0, m1) (line 215). -/
def nm3d (blk : List Nat) : V4 := shift_message1 (nm3c blk) (nm0e blk)

/-- m2 after shift_messages(m0, m1, m2) (line 217): schedule words 40-43. -/
def nm2e (blk : List Nat) : V4 :=
  shift_message2 (nm0e blk) (nm1e blk) (nm2d blk)

/-- m0 after shift_messages(m0, m1, m2) (line 217). -/
def nm0f (blk : List Nat) : V4 := shift_message1 (nm0e blk) (nm1e blk)

/-- m3 after shift_messages(m1, m2, m3) (line 219): schedule words 44-47. -/
def nm3e (blk : List Nat) : V4 :=
  shift_message2 (nm1e blk) (nm2e blk) (nm3d blk)

/-- m1 after shift_messages(m1, m2, m3) (line 219). -/
def nm1f (blk : List Nat) : V4 := shift_message1 (nm1e blk) (nm2e blk)

/-- m0 after shift_messages(m2, m3, m0) (line 221): schedule words 48-51. -/
def nm0g (blk : List Nat) : V4 :=
  shift_message2 (nm2e blk) (nm3e blk) (nm0f blk)

/-- m2 after shift_messages(m2, m3, m0) (line 221). -/
def nm2f (blk : List Nat) : V4 := shift_message1 (nm2e blk) (nm3e blk)

/-- m1 after shift_messages(m3, m0, m1) (line 223): schedule words 52-55. -/
def nm1g (blk : List Nat) : V4 :=
  shift_message2 (nm3e blk) (nm0g blk) (nm1f blk)

/-- m3 after shift_messages(m3, m0, m1) (line 223). -/
def nm3f (blk : List Nat) : V4 := shift_message1 (nm3e blk) (nm0g blk)

/-- m2 after shift_message(m0, m1, m2) (line 225): schedule words 56-59. -/
def nm2g (blk : List Nat) : V4 :=
  shift_message2 (nm0g blk) (nm1g blk) (nm2f blk)

/-- m3 after shift_message(m1, m2, m3) (line 227): schedule words 60-63. -/
def nm3g (blk : List Nat) : V4 :=
  shift_message2 (nm1g blk) (nm2g blk) (nm3f blk)

/-- The sixteen round issues of hash_shani in order: each message register
value as consumed, with the packed 64-bit constant pair of its round call
(sha256_2_shani.cpp lines 194-228). -/
def roundsList (blk : List Nat) : List (V4 × Nat × Nat) :=
  [(nm0 blk, 0xe9b5dba5b5c0fbcf, 0x71374491428a2f98),
   (nm1 blk, 0xab1c5ed5923f82a4, 0x59f111f13956c25b),
   (nm2 blk, 0x550c7dc3243185be, 0x12835b01d807aa98),
   (nm3 blk, 0xc19bf1749bdc06a7, 0x80deb1fe72be5d74),
   (nm0c blk, 0x240ca1cc0fc19dc6, 0xefbe4786e49b69c1),
   (nm1c blk, 0x76f988da5cb0a9dc, 0x4a7484aa2de92c6f),
   (nm2c blk, 0xbf597fc7b00327c8, 0xa831c66d983e5152),
   (nm3c blk, 0x1429296706ca6351, 0xd5a79147c6e00bf3),
   (nm0e blk, 0x53380d134d2c6dfc, 0x2e1b213827b70a85),
   (nm1e blk, 0x92722c8581c2c92e, 0x766a0abb650a7354),
   (nm2e blk, 0xc76c51a3c24b8b70, 0xa81a664ba2bfe8a1),
   (nm3e blk, 0x106aa070f40e3585, 0xd6990624d192e819),
   (nm0g blk, 0x34b0bcb52748774c, 0x1e376c0819a4c116),
   (nm1g blk, 0x682e6ff35b9cca4f, 0x4ed8aa4a391c0cb3),
   (nm2g blk, 0x8cc7020884c87814, 0x78a5636f748f82ee),
   (nm3g blk, 0xc67178f2bef9a3f7, 0xa4506ceb90befffa)]

/-- Folding the round issues over the shuffled state pair, in program
order. -/
def foldRounds : V4 × V4 → List (V4 × Nat × Nat) → V4 × V4
  | p, [] => p
  | p, (m, k1, k0) :: rest => foldRounds (roundM p.1 p.2 m k1 k0) rest

/-- Source sha256_2_shani.cpp lines 166-244: hash_shani on one block.
Loads the state halves, shuffles them into native layout, remembers the old
state, issues the sixteen four-round groups interleaved with the message
schedule shifts (the message chain is the nm* definitions above, which
depend only on the block), adds the old state back lane-wise, unshuffles
and stores. -/
def hash_shani (s : State8) (blk : List Nat) : State8 :=
  let p := shuffle (⟨s.a, s.b, s.c, s.d⟩, ⟨s.e, s.f, s.g, s.h⟩)
  let q := foldRounds p (roundsList blk)
  let r := unshuffle (vsum q.1 p.1, vsum q.2 p.2)
  ⟨r.1.x0, r.1.x1, r.1.x2, r.1.x3, r.2.x0, r.2.x1, r.2.x2, r.2.x3⟩

/-- The (F, E, B, A) register view of a state, the layout of the first
native register between shuffle and unshuffle. -/
def abef (s : State8) : V4 := ⟨s.f, s.e, s.b, s.a⟩

/-- The (H, G, D, C) register view of a state, the layout of the second
native register between shuffle and unshuffle. -/
def cdgh (s : State8) : V4 := ⟨s.h, s.g, s.d, s.c⟩

/-- Two consecutive scalar rounds. -/
def round2 (s : State8) (u v : Nat) : State8 := round1 (round1 s u) v

/-- Four consecutive scalar rounds fed by one message register and one
packed 64-bit constant pair. -/
def round4 (s : State8) (m : V4) (k1 k0 : Nat) : State8 :=
  round2 (round2 s (vsum m (set64 k1 k0)).x0 (vsum m (set64 k1 k0)).x1)
    (vsum m (set64 k1 k0)).x2 (vsum m (set64 k1 k0)).x3

/-- Canonical shape of a message register after msg1 only: four partial
schedule words W(t) + sigma0 W(t+1). -/
def p1form (x0 x1 x2 x3 x4 : Nat) : V4 :=
  ⟨wrap (x0 + sigma0 x1), wrap (x1 + sigma0 x2),
   wrap (x2 + sigma0 x3), wrap (x3 + sigma0 x4)⟩

/-- Schedule word t of the block behind a byte list. -/
def WB (blk : List Nat) (t : Nat) : Nat := Wsched (toW16 blk) t

/-! ## Vector engine (spec-modelled from section 4.2: lane-parallel
schedule and compression over wide words holding one 32-bit word per
block lane; declarations at algorithm.hpp lines 217-308) -/

def xV (L : Nat) := Fin L → Nat

def xzero (L : Nat) : xV L := fun _ => 0

def laneAt (L : Nat) (l : Fin L) (v : xV L) : Nat := v l

def xws0 (L : Nat) (blks : Fin L → W16) : List (xV L) :=
  [fun i => (blks i).w15, fun i => (blks i).w14, fun i => (blks i).w13,
   fun i => (blks i).w12, fun i => (blks i).w11, fun i => (blks i).w10,
   fun i => (blks i).w9, fun i => (blks i).w8, fun i => (blks i).w7,
   fun i => (blks i).w6, fun i => (blks i).w5, fun i => (blks i).w4,
   fun i => (blks i).w3, fun i => (blks i).w2, fun i => (blks i).w1,
   fun i => (blks i).w0]

def xsstep (L : Nat) (l : List (xV L)) : List (xV L) :=
  (fun i => wrap (sigma1 (l.getD 1 (xzero L) i) + l.getD 6 (xzero L) i +
    sigma0 (l.getD 14 (xzero L) i) + l.getD 15 (xzero L) i)) :: l

def xschedRev (L : Nat) (blks : Fin L → W16) : Nat → List (xV L)
  | 0 => xws0 L blks
  | n + 1 => xsstep L (xschedRev L blks n)

def xWsched (L : Nat) (blks : Fin L → W16) (t : Nat) : xV L :=
  (xschedRev L blks 48).getD (63 - t) (xzero L)

def xwkList (L : Nat) (blks : Fin L → W16) : List (xV L) :=
  (List.range rounds).map
    (fun t => fun i => wrap (xWsched L blks t i + Klist.getD t 0))

structure XState (L : Nat) where
  a : xV L
  b : xV L
  c : xV L
  d : xV L
  e : xV L
  f : xV L
  g : xV L
  h : xV L

def xround1 (L : Nat) (s : XState L) (wk : xV L) : XState L :=
  ⟨fun i => wrap ((wrap (s.h i + bSigma1 (s.e i) +
      choice (s.e i) (s.f i) (s.g i) + wk i)) +
      (wrap (bSigma0 (s.a i) + majority (s.a i) (s.b i) (s.c i)))),
   s.a, s.b, s.c,
   fun i => wrap (s.d i + wrap (s.h i + bSigma1 (s.e i) +
      choice (s.e i) (s.f i) (s.g i) + wk i)),
   s.e, s.f, s.g⟩

def xsummarize (L : Nat) (x y : XState L) : XState L :=
  ⟨fun i => wrap (x.a i + y.a i), fun i => wrap (x.b i + y.b i),
   fun i => wrap (x.c i + y.c i), fun i => wrap (x.d i + y.d i),
   fun i => wrap (x.e i + y.e i), fun i => wrap (x.f i + y.f i),
   fun i => wrap (x.g i + y.g i), fun i => wrap (x.h i + y.h i)⟩

def xcompress (L : Nat) (s : XState L) (buf : List (xV L)) : XState L :=
  xsummarize L (buf.foldl (xround1 L) s) s

def packState (L : Nat) (s : State8) : XState L :=
  ⟨fun _ => s.a, fun _ => s.b, fun _ => s.c, fun _ => s.d,
   fun _ => s.e, fun _ => s.f, fun _ => s.g, fun _ => s.h⟩

def unpackLane (L : Nat) (xs : XState L) (l : Fin L) : State8 :=
  ⟨xs.a l, xs.b l, xs.c l, xs.d l, xs.e l, xs.f l, xs.g l, xs.h l⟩


/-! ## Padding (spec-modelled from section 4.4: FIPS 180-4 padding with the
two precomputed specializations) -/

/-- Modelled from the spec: the pad block appended after n whole blocks of
stream input. One 0x80 byte, zeros, and the 64-bit big-endian bit count
n * 512 in the last two words (the count wraps at the 64-bit count_t). -/
def padW16 (n : Nat) : W16 :=
  ⟨0x80000000, 0, 0, 0, 0, 0, 0, 0, 0, 0, 0, 0, 0, 0,
   n * 512 / 4294967296 % 4294967296, n * 512 % 4294967296⟩

/-- Modelled from the spec: the buffer for a half-block (32-byte) input.
Words 0-7 are the big-endian input words; words 8-15 are the fixed
half-block pad: 0x80 then zeros then the bit count 256. -/
def halfW16 (half : List Nat) : W16 :=
  ⟨be32at half 0, be32at half 4, be32at half 8, be32at half 12,
   be32at half 16, be32at half 20, be32at half 24, be32at half 28,
   0x80000000, 0, 0, 0, 0, 0, 0, 256⟩

/-- Modelled from the spec: reinput loads the first digest's state words
directly into buffer words 0-7 (no byte serialization round trip), and
pad_half supplies words 8-15. -/
def reinputW16 (s : State8) : W16 :=
  ⟨s.a, s.b, s.c, s.d, s.e, s.f, s.g, s.h,
   0x80000000, 0, 0, 0, 0, 0, 0, 256⟩

/-! ## Hashing entry points (spec-modelled; declarations at algorithm.hpp
lines 95-126) -/

/-- Modelled from the spec: block iteration, compressing each block of the
stream in order into the state. -/
def iterate : State8 → List (List Nat) → State8
  | s, [] => s
  | s, blk :: rest => iterate (compress s (wkList (toW16 blk))) rest

/-- Modelled from the spec: the one-shot hash of a sequence of whole blocks;
iteration, then one compression of the scheduled stream pad, then output. -/
def hashBlocks (blks : List (List Nat)) : List Nat :=
  output (compress (iterate initialState blks)
    (wkList (padW16 blks.length)))

/-- Modelled from the spec: the hash of one 64-byte block message. -/
def hashBlock (blk : List Nat) : List Nat :=
  output (compress (compress initialState (wkList (toW16 blk)))
    (wkList (padW16 1)))

/-- Modelled from the spec: the hash of a 32-byte half-block message, one
compression of the half-padded buffer. -/
def hashHalf (half : List Nat) : List Nat :=
  output (compress initialState (wkList (halfW16 half)))

/-- Modelled from the spec: the hash of two concatenated half blocks. -/
def hashHalves (l r : List Nat) : List Nat :=
  output (compress (compress initialState (wkList (toW16 (l ++ r))))
    (wkList (padW16 1)))

/-- Modelled from the spec: double hash of one block; the first digest's
state is reinjected as a half-block input and rehashed from the initial
state. -/
def double_hashBlock (blk : List Nat) : List Nat :=
  output (compress initialState (wkList (reinputW16
    (compress (compress initialState (wkList (toW16 blk)))
      (wkList (padW16 1))))))

/-- Modelled from the spec: double hash of a sequence of whole blocks. -/
def double_hashBlocks (blks : List (List Nat)) : List Nat :=
  output (compress initialState (wkList (reinputW16
    (compress (iterate initialState blks)
      (wkList (padW16 blks.length))))))

/-- Modelled from the spec: double hash of a half-block input. -/
def double_hashHalf (half : List Nat) : List Nat :=
  output (compress initialState (wkList (reinputW16
    (compress initialState (wkList (halfW16 half))))))

/-- Modelled from the spec: double hash of two concatenated half blocks. -/
def double_hashHalves (l r : List Nat) : List Nat :=
  output (compress initialState (wkList (reinputW16
    (compress (compress initialState (wkList (toW16 (l ++ r))))
      (wkList (padW16 1))))))

/-! ## Streaming accumulator (spec-modelled from section 4.5; declarations
at algorithm.hpp lines 119-126) -/

/-- Modelled from the spec: accumulate compresses one block into the
state. -/
def accumulate (s : State8) (blk : List Nat) : State8 :=
  compress s (wkList (toW16 blk))

/-- Modelled from the spec: finalize synthesizes the pad from the block
count, compresses it, and serializes the digest. -/
def finalize (s : State8) (blocks : Nat) : List Nat :=
  output (compress s (wkList (padW16 blocks)))

/-- The streaming accumulator: the running state and the count of blocks
accumulated so far. -/
structure Accumulator where
  state : State8
  blocks : Nat
deriving Repr, DecidableEq

/-- Modelled from the spec: one accumulate call on the accumulator. -/
def acc_accumulate (acc : Accumulator) (blk : List Nat) : Accumulator :=
  ⟨accumulate acc.state blk, acc.blocks + 1⟩

/-- Modelled from the spec (section 4.5): finalize computes the digest from
the state as currently accumulated, synthesizing the pad from the block
count; the accumulated state itself is not advanced by finalizing. -/
def acc_finalize (acc : Accumulator) : List Nat × Accumulator :=
  (finalize acc.state acc.blocks, acc)

/-! ## Merkle driver (spec-modelled from section 4.6: pairwise double
hashing of digest lists, with the vector engine batching sibling pairs into
lane batches; declarations at algorithm.hpp lines 116-117 and 332-340) -/

def double_hashW (b : W16) : List Nat :=
  output (compress initialState (wkList (reinputW16
    (compress (compress initialState (wkList b)) (wkList (padW16 1))))))

def xdouble_hash_digest_blocks (L : Nat) (blks : Fin L → W16) :
    Fin L → List Nat :=
  fun i =>
    let s1 := xcompress L (packState L initialState) (xwkList L blks)
    let s2 := xcompress L s1 (xwkList L (fun _ => padW16 1))
    let s3 := xcompress L (packState L initialState)
      (xwkList L (fun j => reinputW16 (unpackLane L s2 j)))
    output (unpackLane L s3 i)

def toPairs : List (List Nat) → List (List Nat × List Nat)
  | a :: b :: rest => (a, b) :: toPairs rest
  | _ => []

def packPairs (L : Nat) (ps : List (List Nat × List Nat)) : Fin L → W16 :=
  fun j => toW16 ((ps.getD j ([], [])).1 ++ (ps.getD j ([], [])).2)

def xbatch (L : Nat) (ps : List (List Nat × List Nat)) : List (List Nat) :=
  (List.finRange L).map (xdouble_hash_digest_blocks L (packPairs L ps))

def pairDigest (p : List Nat × List Nat) : List Nat :=
  double_hashHalves p.1 p.2

def chunked_level_fuel : Nat → Nat → List (List Nat × List Nat) →
    List (List Nat)
  | _, _, [] => []
  | 0, _, ps => ps.map pairDigest
  | fuel + 1, L, ps =>
      if 0 < L ∧ L ≤ ps.length then
        xbatch L (ps.take L) ++ chunked_level_fuel fuel L (ps.drop L)
      else ps.map pairDigest

def merkle_level_vec (L : Nat) (ds : List (List Nat)) : List (List Nat) :=
  chunked_level_fuel (toPairs ds).length L (toPairs ds)

def merkle_hash_scalar : List (List Nat) → List (List Nat)
  | a :: b :: rest => double_hashHalves a b :: merkle_hash_scalar rest
  | _ => []

def evenize (ds : List (List Nat)) : List (List Nat) :=
  if ds.length % 2 = 1 then ds ++ [ds.getLastD []] else ds

def merkle_root_fuel : Nat → List (List Nat) → Option (List Nat)
  | _, [] => none
  | _, [d] => some d
  | 0, _ :: _ :: _ => none
  | fuel + 1, a :: b :: rest =>
      merkle_root_fuel fuel (merkle_hash_scalar (evenize (a :: b :: rest)))

def merkle_root_vec_fuel (L : Nat) : Nat → List (List Nat) →
    Option (List Nat)
  | _, [] => none
  | _, [d] => some d
  | 0, _ :: _ :: _ => none
  | fuel + 1, a :: b :: rest =>
      merkle_root_vec_fuel L fuel (merkle_level_vec L (evenize (a :: b :: rest)))

def merkle_root_scalar (ds : List (List Nat)) : Option (List Nat) :=
  merkle_root_fuel ds.length ds

def merkle_root_vec (L : Nat) (ds : List (List Nat)) : Option (List Nat) :=
  merkle_root_vec_fuel L ds.length ds

/-- The single block consisting of byte 0x61 followed by FIPS padding: the
0x80 terminator, zeros, and the 64-bit big-endian bit length 8. -/
def aPaddedBlock : List Nat :=
  [97, 128, 0, 0, 0, 0, 0, 0, 0, 0, 0, 0, 0, 0, 0, 0,
   0, 0, 0, 0, 0, 0, 0, 0, 0, 0, 0, 0, 0, 0, 0, 0,
   0, 0, 0, 0, 0, 0, 0, 0, 0, 0, 0, 0, 0, 0, 0, 0,
   0, 0, 0, 0, 0, 0, 0, 0, 0, 0, 0, 0, 0, 0, 0, 8]

/-- State with every word reduced to 32 bits. -/
def wrapS (s : State8) : State8 :=
  ⟨wrap s.a, wrap s.b, wrap s.c, wrap s.d,
   wrap s.e, wrap s.f, wrap s.g, wrap s.h⟩

/-! ## Helper lemmas -/

/-- Parsing the serialized digest of a state as a half-block input recovers
the state words (reduced to 32 bits) in buffer words 0-7, with the identical
half pad in words 8-15. -/
theorem halfW16_output (s : State8) :
    halfW16 (output s) = reinputW16 (wrapS s) := by
  unfold halfW16 reinputW16 wrapS
  refine W16.ext ?_ ?_ ?_ ?_ ?_ ?_ ?_ ?_ ?_ ?_ ?_ ?_ ?_ ?_ ?_ ?_ <;>
    simp [be32at, output, List.getD, wrap, M32] <;> omega

/-- The Davies-Meyer feed forward already reduces every word to 32 bits. -/
theorem wrapS_summarize (x y : State8) :
    wrapS (summarize x y) = summarize x y := by
  unfold wrapS summarize
  refine State8.ext ?_ ?_ ?_ ?_ ?_ ?_ ?_ ?_ <;> simp [wrap, M32, Nat.mod_mod]

/-- Compression output is already reduced to 32 bits word by word. -/
theorem wrapS_compress (s : State8) (buf : List Nat) :
    wrapS (compress s buf) = compress s buf := by
  unfold compress; exact wrapS_summarize _ _

/-- Block iteration is the left fold of accumulate. -/
theorem iterate_eq_foldl (blks : List (List Nat)) :
    ∀ s : State8, iterate s blks = blks.foldl accumulate s := by
  induction blks with
  | nil => intro s; rfl
  | cons blk rest ih => intro s; simpa [iterate, accumulate] using ih _

/-- With a buffer of the announced length, the round-counted application
equals the left fold over the buffer. -/
theorem applyRounds_eq_foldl (buf : List Nat) :
    ∀ (s : State8) (n : Nat), buf.length = n →
      applyRounds n s buf = buf.foldl round1 s := by
  induction buf with
  | nil => intro s n h; subst h; rfl
  | cons w ws ih =>
      intro s n h
      subst h
      simpa [applyRounds] using ih (round1 s w) ws.length rfl

/-! ## Native engine proof lemmas -/

theorem schedRev_succ_getD (b : W16) (n j : Nat) :
    (schedRev b (n + 1)).getD (j + 1) 0 = (schedRev b n).getD j 0 := rfl

theorem schedRev_add_getD (b : W16) (m : Nat) :
    ∀ n j, (schedRev b (n + m)).getD (j + m) 0 = (schedRev b n).getD j 0 := by
  induction m with
  | zero => intro n j; rfl
  | succ k ih =>
      intro n j
      exact (schedRev_succ_getD b (n + k) (j + k)).trans (ih n j)

theorem schedRev_head (b : W16) (n : Nat) :
    (schedRev b (n + 1)).getD 0 0 =
      wrap (sigma1 ((schedRev b n).getD 1 0) + (schedRev b n).getD 6 0 +
        sigma0 ((schedRev b n).getD 14 0) + (schedRev b n).getD 15 0) := rfl

theorem Wsched_rec (b : W16) (t : Nat) (h1 : 16 ≤ t) (h2 : t ≤ 63) :
    Wsched b t = wrap (sigma1 (Wsched b (t - 2)) + Wsched b (t - 7) +
      sigma0 (Wsched b (t - 15)) + Wsched b (t - 16)) := by
  unfold Wsched
  obtain ⟨u, rfl⟩ : ∃ u, t = u + 16 := ⟨t - 16, by omega⟩
  have e1 : (schedRev b 48).getD (63 - (u + 16)) 0 =
      (schedRev b (u + 1)).getD 0 0 := by
    have h := schedRev_add_getD b (47 - u) (u + 1) 0
    rw [show u + 1 + (47 - u) = 48 from by omega, Nat.zero_add] at h
    rw [show 63 - (u + 16) = 47 - u from by omega]
    exact h
  have o1 : (schedRev b u).getD 1 0 =
      (schedRev b 48).getD (63 - (u + 16 - 2)) 0 := by
    have h := schedRev_add_getD b (48 - u) u 1
    rw [show u + (48 - u) = 48 from by omega,
      show 1 + (48 - u) = 63 - (u + 16 - 2) from by omega] at h
    exact h.symm
  have o2 : (schedRev b u).getD 6 0 =
      (schedRev b 48).getD (63 - (u + 16 - 7)) 0 := by
    have h := schedRev_add_getD b (48 - u) u 6
    rw [show u + (48 - u) = 48 from by omega,
      show 6 + (48 - u) = 63 - (u + 16 - 7) from by omega] at h
    exact h.symm
  have o3 : (schedRev b u).getD 14 0 =
      (schedRev b 48).getD (63 - (u + 16 - 15)) 0 := by
    have h := schedRev_add_getD b (48 - u) u 14
    rw [show u + (48 - u) = 48 from by omega,
      show 14 + (48 - u) = 63 - (u + 16 - 15) from by omega] at h
    exact h.symm
  have o4 : (schedRev b u).getD 15 0 =
      (schedRev b 48).getD (63 - (u + 16 - 16)) 0 := by
    have h := schedRev_add_getD b (48 - u) u 15
    rw [show u + (48 - u) = 48 from by omega,
      show 15 + (48 - u) = 63 - (u + 16 - 16) from by omega] at h
    exact h.symm
  rw [e1, schedRev_head b u, o1, o2, o3, o4]

theorem WB_rec (blk : List Nat) (t : Nat) (h1 : 16 ≤ t) (h2 : t ≤ 63) :
    WB blk t = wrap (sigma1 (WB blk (t - 2)) + WB blk (t - 7) +
      sigma0 (WB blk (t - 15)) + WB blk (t - 16)) :=
  Wsched_rec (toW16 blk) t h1 h2



theorem sha256msg2_mk (a b : V4) :
    sha256msg2 a b = ⟨wrap (a.x0 + sigma1 b.x2), wrap (a.x1 + sigma1 b.x3),
      wrap (a.x2 + sigma1 (wrap (a.x0 + sigma1 b.x2))),
      wrap (a.x3 + sigma1 (wrap (a.x1 + sigma1 b.x3)))⟩ := rfl

theorem complete_four (P A F : V4)
    (u0 u1 u2 u3 u4 v0 v1 v2 v3 z2 z3 y0 y1 y2 y3 : Nat)
    (hP : P = p1form u0 u1 u2 u3 u4)
    (hA : A = ⟨v0, v1, v2, v3⟩)
    (hF2 : F.x2 = z2) (hF3 : F.x3 = z3)
    (hy0 : y0 = wrap (sigma1 z2 + v0 + sigma0 u1 + u0))
    (hy1 : y1 = wrap (sigma1 z3 + v1 + sigma0 u2 + u1))
    (hy2 : y2 = wrap (sigma1 y0 + v2 + sigma0 u3 + u2))
    (hy3 : y3 = wrap (sigma1 y1 + v3 + sigma0 u4 + u3)) :
    sha256msg2 (vsum P A) F = ⟨y0, y1, y2, y3⟩ := by
  subst hP hA
  rw [sha256msg2_mk]
  have h0 : wrap ((vsum (p1form u0 u1 u2 u3 u4) ⟨v0, v1, v2, v3⟩).x0 +
      sigma1 F.x2) = y0 := by
    rw [hF2, hy0]; simp only [vsum, p1form, wrap, M32]; omega
  have h1 : wrap ((vsum (p1form u0 u1 u2 u3 u4) ⟨v0, v1, v2, v3⟩).x1 +
      sigma1 F.x3) = y1 := by
    rw [hF3, hy1]; simp only [vsum, p1form, wrap, M32]; omega
  simp only [V4.mk.injEq]
  refine ⟨h0, h1, ?_, ?_⟩
  · rw [h0, hy2]; simp only [vsum, p1form, wrap, M32]; omega
  · rw [h1, hy3]; simp only [vsum, p1form, wrap, M32]; omega

theorem register_complete (blk : List Nat) (t : Nat) (P A F : V4)
    (h1 : 16 ≤ t) (h2 : t + 3 ≤ 63)
    (hP : P = p1form (WB blk (t - 16)) (WB blk (t - 15)) (WB blk (t - 14))
      (WB blk (t - 13)) (WB blk (t - 12)))
    (hA : A = ⟨WB blk (t - 7), WB blk (t - 6), WB blk (t - 5),
      WB blk (t - 4)⟩)
    (hF2 : F.x2 = WB blk (t - 2)) (hF3 : F.x3 = WB blk (t - 1)) :
    sha256msg2 (vsum P A) F =
      ⟨WB blk t, WB blk (t + 1), WB blk (t + 2), WB blk (t + 3)⟩ := by
  refine complete_four P A F (WB blk (t - 16)) (WB blk (t - 15))
    (WB blk (t - 14)) (WB blk (t - 13)) (WB blk (t - 12))
    (WB blk (t - 7)) (WB blk (t - 6)) (WB blk (t - 5)) (WB blk (t - 4))
    (WB blk (t - 2)) (WB blk (t - 1))
    (WB blk t) (WB blk (t + 1)) (WB blk (t + 2)) (WB blk (t + 3))
    hP hA hF2 hF3 ?_ ?_ ?_ ?_
  · exact WB_rec blk t h1 (by omega)
  · have h := WB_rec blk (t + 1) (by omega) (by omega)
    rw [show t + 1 - 2 = t - 1 from by omega,
      show t + 1 - 7 = t - 6 from by omega,
      show t + 1 - 15 = t - 14 from by omega,
      show t + 1 - 16 = t - 15 from by omega] at h
    exact h
  · have h := WB_rec blk (t + 2) (by omega) (by omega)
    rw [show t + 2 - 2 = t from by omega,
      show t + 2 - 7 = t - 5 from by omega,
      show t + 2 - 15 = t - 13 from by omega,
      show t + 2 - 16 = t - 14 from by omega] at h
    exact h
  · have h := WB_rec blk (t + 3) (by omega) (by omega)
    rw [show t + 3 - 2 = t + 1 from by omega,
      show t + 3 - 7 = t - 4 from by omega,
      show t + 3 - 15 = t - 12 from by omega,
      show t + 3 - 16 = t - 13 from by omega] at h
    exact h

theorem nm0c_spec (blk : List Nat) :
    nm0c blk = ⟨WB blk 16, WB blk 17, WB blk 18, WB blk 19⟩ := by
  show sha256msg2 (vsum (nm0b blk) (align_right4 (nm3 blk) (nm2 blk)))
    (nm3 blk) = _
  exact register_complete blk 16 (nm0b blk)
    (align_right4 (nm3 blk) (nm2 blk)) (nm3 blk)
    (by norm_num) (by norm_num) rfl rfl rfl rfl

theorem nm1c_spec (blk : List Nat) :
    nm1c blk = ⟨WB blk 20, WB blk 21, WB blk 22, WB blk 23⟩ := by
  show sha256msg2 (vsum (nm1b blk) (align_right4 (nm0c blk) (nm3 blk)))
    (nm0c blk) = _
  refine register_complete blk 20 (nm1b blk)
    (align_right4 (nm0c blk) (nm3 blk)) (nm0c blk)
    (by norm_num) (by norm_num) rfl ?_ ?_ ?_
  · rw [nm0c_spec]; rfl
  · rw [nm0c_spec]
  · rw [nm0c_spec]



theorem nm0_spec (blk : List Nat) :
    nm0 blk = ⟨WB blk 0, WB blk 1, WB blk 2, WB blk 3⟩ := rfl

theorem nm1_spec (blk : List Nat) :
    nm1 blk = ⟨WB blk 4, WB blk 5, WB blk 6, WB blk 7⟩ := rfl

theorem nm2_spec (blk : List Nat) :
    nm2 blk = ⟨WB blk 8, WB blk 9, WB blk 10, WB blk 11⟩ := rfl

theorem nm3_spec (blk : List Nat) :
    nm3 blk = ⟨WB blk 12, WB blk 13, WB blk 14, WB blk 15⟩ := rfl

theorem nm2c_spec (blk : List Nat) :
    nm2c blk = ⟨WB blk 24, WB blk 25, WB blk 26, WB blk 27⟩ := by
  show sha256msg2 (vsum (nm2b blk) (align_right4 (nm1c blk) (nm0c blk)))
    (nm1c blk) = _
  refine register_complete blk 24 (nm2b blk)
    (align_right4 (nm1c blk) (nm0c blk)) (nm1c blk)
    (by norm_num) (by norm_num) rfl ?_ ?_ ?_
  · rw [nm1c_spec, nm0c_spec]; rfl
  · rw [nm1c_spec]
  · rw [nm1c_spec]

theorem nm3c_spec (blk : List Nat) :
    nm3c blk = ⟨WB blk 28, WB blk 29, WB blk 30, WB blk 31⟩ := by
  show sha256msg2 (vsum (nm3b blk) (align_right4 (nm2c blk) (nm1c blk)))
    (nm2c blk) = _
  refine register_complete blk 28 (nm3b blk)
    (align_right4 (nm2c blk) (nm1c blk)) (nm2c blk)
    (by norm_num) (by norm_num) ?_ ?_ ?_ ?_
  · show shift_message1 (nm3 blk) (nm0c blk) = _
    rw [nm0c_spec]; rfl
  · rw [nm2c_spec, nm1c_spec]; rfl
  · rw [nm2c_spec]
  · rw [nm2c_spec]

theorem nm0e_spec (blk : List Nat) :
    nm0e blk = ⟨WB blk 32, WB blk 33, WB blk 34, WB blk 35⟩ := by
  show sha256msg2 (vsum (nm0d blk) (align_right4 (nm3c blk) (nm2c blk)))
    (nm3c blk) = _
  refine register_complete blk 32 (nm0d blk)
    (align_right4 (nm3c blk) (nm2c blk)) (nm3c blk)
    (by norm_num) (by norm_num) ?_ ?_ ?_ ?_
  · show shift_message1 (nm0c blk) (nm1c blk) = _
    rw [nm0c_spec, nm1c_spec]; rfl
  · rw [nm3c_spec, nm2c_spec]; rfl
  · rw [nm3c_spec]
  · rw [nm3c_spec]

theorem nm1e_spec (blk : List Nat) :
    nm1e blk = ⟨WB blk 36, WB blk 37, WB blk 38, WB blk 39⟩ := by
  show sha256msg2 (vsum (nm1d blk) (align_right4 (nm0e blk) (nm3c blk)))
    (nm0e blk) = _
  refine register_complete blk 36 (nm1d blk)
    (align_right4 (nm0e blk) (nm3c blk)) (nm0e blk)
    (by norm_num) (by norm_num) ?_ ?_ ?_ ?_
  · show shift_message1 (nm1c blk) (nm2c blk) = _
    rw [nm1c_spec, nm2c_spec]; rfl
  · rw [nm0e_spec, nm3c_spec]; rfl
  · rw [nm0e_spec]
  · rw [nm0e_spec]

theorem nm2e_spec (blk : List Nat) :
    nm2e blk = ⟨WB blk 40, WB blk 41, WB blk 42, WB blk 43⟩ := by
  show sha256msg2 (vsum (nm2d blk) (align_right4 (nm1e blk) (nm0e blk)))
    (nm1e blk) = _
  refine register_complete blk 40 (nm2d blk)
    (align_right4 (nm1e blk) (nm0e blk)) (nm1e blk)
    (by norm_num) (by norm_num) ?_ ?_ ?_ ?_
  · show shift_message1 (nm2c blk) (nm3c blk) = _
    rw [nm2c_spec, nm3c_spec]; rfl
  · rw [nm1e_spec, nm0e_spec]; rfl
  · rw [nm1e_spec]
  · rw [nm1e_spec]

theorem nm3e_spec (blk : List Nat) :
    nm3e blk = ⟨WB blk 44, WB blk 45, WB blk 46, WB blk 47⟩ := by
  show sha256msg2 (vsum (nm3d blk) (align_right4 (nm2e blk) (nm1e blk)))
    (nm2e blk) = _
  refine register_complete blk 44 (nm3d blk)
    (align_right4 (nm2e blk) (nm1e blk)) (nm2e blk)
    (by norm_num) (by norm_num) ?_ ?_ ?_ ?_
  · show shift_message1 (nm3c blk) (nm0e blk) = _
    rw [nm3c_spec, nm0e_spec]; rfl
  · rw [nm2e_spec, nm1e_spec]; rfl
  · rw [nm2e_spec]
  · rw [nm2e_spec]

theorem nm0g_spec (blk : List Nat) :
    nm0g blk = ⟨WB blk 48, WB blk 49, WB blk 50, WB blk 51⟩ := by
  show sha256msg2 (vsum (nm0f blk) (align_right4 (nm3e blk) (nm2e blk)))
    (nm3e blk) = _
  refine register_complete blk 48 (nm0f blk)
    (align_right4 (nm3e blk) (nm2e blk)) (nm3e blk)
    (by norm_num) (by norm_num) ?_ ?_ ?_ ?_
  · show shift_message1 (nm0e blk) (nm1e blk) = _
    rw [nm0e_spec, nm1e_spec]; rfl
  · rw [nm3e_spec, nm2e_spec]; rfl
  · rw [nm3e_spec]
  · rw [nm3e_spec]

theorem nm1g_spec (blk : List Nat) :
    nm1g blk = ⟨WB blk 52, WB blk 53, WB blk 54, WB blk 55⟩ := by
  show sha256msg2 (vsum (nm1f blk) (align_right4 (nm0g blk) (nm3e blk)))
    (nm0g blk) = _
  refine register_complete blk 52 (nm1f blk)
    (align_right4 (nm0g blk) (nm3e blk)) (nm0g blk)
    (by norm_num) (by norm_num) ?_ ?_ ?_ ?_
  · show shift_message1 (nm1e blk) (nm2e blk) = _
    rw [nm1e_spec, nm2e_spec]; rfl
  · rw [nm0g_spec, nm3e_spec]; rfl
  · rw [nm0g_spec]
  · rw [nm0g_spec]

theorem nm2g_spec (blk : List Nat) :
    nm2g blk = ⟨WB blk 56, WB blk 57, WB blk 58, WB blk 59⟩ := by
  show sha256msg2 (vsum (nm2f blk) (align_right4 (nm1g blk) (nm0g blk)))
    (nm1g blk) = _
  refine register_complete blk 56 (nm2f blk)
    (align_right4 (nm1g blk) (nm0g blk)) (nm1g blk)
    (by norm_num) (by norm_num) ?_ ?_ ?_ ?_
  · show shift_message1 (nm2e blk) (nm3e blk) = _
    rw [nm2e_spec, nm3e_spec]; rfl
  · rw [nm1g_spec, nm0g_spec]; rfl
  · rw [nm1g_spec]
  · rw [nm1g_spec]

theorem nm3g_spec (blk : List Nat) :
    nm3g blk = ⟨WB blk 60, WB blk 61, WB blk 62, WB blk 63⟩ := by
  show sha256msg2 (vsum (nm3f blk) (align_right4 (nm2g blk) (nm1g blk)))
    (nm2g blk) = _
  refine register_complete blk 60 (nm3f blk)
    (align_right4 (nm2g blk) (nm1g blk)) (nm2g blk)
    (by norm_num) (by norm_num) ?_ ?_ ?_ ?_
  · show shift_message1 (nm3e blk) (nm0g blk) = _
    rw [nm3e_spec, nm0g_spec]; rfl
  · rw [nm2g_spec, nm1g_spec]; rfl
  · rw [nm2g_spec]
  · rw [nm2g_spec]



theorem sha256rnds2_spec (s : State8) (k : V4) :
    sha256rnds2 (cdgh s) (abef s) k = abef (round2 s k.x0 k.x1) := by
  obtain ⟨a, b, c, d, e, f, g, h⟩ := s
  obtain ⟨k0, k1, k2, k3⟩ := k
  simp only [sha256rnds2, cdgh, abef, round2, round1, wrap, M32, V4.mk.injEq]
  generalize choice e f g = ch
  generalize bSigma1 e = sg
  generalize majority a b c = mj
  generalize bSigma0 a = sz
  have hE : (ch + sg + k0 + h + d) % 4294967296 =
      (d + (h + sg + ch + k0) % 4294967296) % 4294967296 := by omega
  have hA : (ch + sg + k0 + h + mj + sz) % 4294967296 =
      ((h + sg + ch + k0) % 4294967296 + (sz + mj) % 4294967296) %
        4294967296 := by omega
  rw [hE, hA]
  refine ⟨rfl, by omega, rfl, by omega⟩

theorem cdgh_round2 (s : State8) (u v : Nat) :
    cdgh (round2 s u v) = abef s := rfl

theorem roundM_spec (s : State8) (m : V4) (k1 k0 : Nat) :
    roundM (abef s) (cdgh s) m k1 k0 =
      (abef (round4 s m k1 k0), cdgh (round4 s m k1 k0)) := by
  show (sha256rnds2 (abef s)
      (sha256rnds2 (cdgh s) (abef s) (vsum m (set64 k1 k0)))
      (shuf_0e (vsum m (set64 k1 k0))),
    sha256rnds2 (cdgh s) (abef s) (vsum m (set64 k1 k0))) = _
  rw [sha256rnds2_spec s (vsum m (set64 k1 k0))]
  rw [← cdgh_round2 s (vsum m (set64 k1 k0)).x0 (vsum m (set64 k1 k0)).x1]
  rw [sha256rnds2_spec (round2 s (vsum m (set64 k1 k0)).x0
    (vsum m (set64 k1 k0)).x1) (shuf_0e (vsum m (set64 k1 k0)))]
  rfl

theorem foldRounds_nil (p : V4 × V4) : foldRounds p [] = p := rfl

theorem foldRounds_step (S : State8) (m : V4) (k1 k0 : Nat)
    (rest : List (V4 × Nat × Nat)) :
    foldRounds (abef S, cdgh S) ((m, k1, k0) :: rest) =
      foldRounds (abef (round4 S m k1 k0), cdgh (round4 S m k1 k0)) rest := by
  show foldRounds (roundM (abef S) (cdgh S) m k1 k0) rest = _
  rw [roundM_spec]

theorem hash_shani_eq_scalar (s : State8) (blk : List Nat) :
    hash_shani s blk = compress s (wkList (toW16 blk)) := by
  have hsh : shuffle (⟨s.a, s.b, s.c, s.d⟩, ⟨s.e, s.f, s.g, s.h⟩) =
      (abef s, cdgh s) := rfl
  simp only [hash_shani, hsh, roundsList, nm0_spec, nm1_spec, nm2_spec,
    nm3_spec, nm0c_spec, nm1c_spec, nm2c_spec, nm3c_spec, nm0e_spec,
    nm1e_spec, nm2e_spec, nm3e_spec, nm0g_spec, nm1g_spec, nm2g_spec,
    nm3g_spec, foldRounds_step, foldRounds_nil]
  rfl

/-! ## Vector engine lane extraction lemmas -/

theorem lane_getD (L : Nat) (l : Fin L) :
    ∀ (xs : List (xV L)) (j : Nat),
      xs.getD j (xzero L) l = (xs.map (laneAt L l)).getD j 0 := by
  intro xs
  induction xs with
  | nil => intro j; cases j <;> rfl
  | cons x xs ih =>
      intro j
      cases j with
      | zero => rfl
      | succ j2 => exact ih j2

theorem xschedRev_map (L : Nat) (blks : Fin L → W16) (l : Fin L) :
    ∀ n, (xschedRev L blks n).map (laneAt L l) = schedRev (blks l) n := by
  intro n
  induction n with
  | zero => rfl
  | succ k ih =>
      show List.map (laneAt L l) (xsstep L (xschedRev L blks k)) =
        sstep (schedRev (blks l) k)
      simp only [xsstep, sstep, List.map_cons, laneAt, lane_getD L l, ih]

theorem xWsched_lane (L : Nat) (blks : Fin L → W16) (t : Nat) (l : Fin L) :
    xWsched L blks t l = Wsched (blks l) t := by
  unfold xWsched Wsched
  rw [show (xschedRev L blks 48).getD (63 - t) (xzero L) l =
    ((xschedRev L blks 48).map (laneAt L l)).getD (63 - t) 0 from
      lane_getD L l _ _]
  rw [xschedRev_map]

theorem xwkList_lane (L : Nat) (blks : Fin L → W16) (l : Fin L) :
    (xwkList L blks).map (laneAt L l) = wkList (blks l) := by
  unfold xwkList wkList
  rw [List.map_map]
  refine List.map_congr_left ?_
  intro t ht
  show wrap (xWsched L blks t l + Klist.getD t 0) = wkEntry (blks l) t
  rw [xWsched_lane]
  rfl

theorem xfold_lane (L : Nat) (l : Fin L) :
    ∀ (bufs : List (xV L)) (xs : XState L),
      unpackLane L (bufs.foldl (xround1 L) xs) l =
        (bufs.map (laneAt L l)).foldl round1 (unpackLane L xs l) := by
  intro bufs
  induction bufs with
  | nil => intro xs; rfl
  | cons wk rest ih =>
      intro xs
      show unpackLane L (rest.foldl (xround1 L) (xround1 L xs wk)) l = _
      rw [ih]
      rfl

theorem xcompress_lane (L : Nat) (s : State8) (blks : Fin L → W16)
    (l : Fin L) :
    unpackLane L (xcompress L (packState L s) (xwkList L blks)) l =
      compress s (wkList (blks l)) := by
  unfold xcompress compress
  show unpackLane L (xsummarize L
    ((xwkList L blks).foldl (xround1 L) (packState L s)) (packState L s)) l = _
  have hs : unpackLane L ((xwkList L blks).foldl (xround1 L)
      (packState L s)) l = (wkList (blks l)).foldl round1 s := by
    rw [xfold_lane, xwkList_lane]
    rfl
  show summarize (unpackLane L ((xwkList L blks).foldl (xround1 L)
    (packState L s)) l) (unpackLane L (packState L s) l) = _
  rw [hs]
  rfl


/-! ## Merkle batching lemmas -/

theorem xcompress_lane_any (L : Nat) (xs : XState L) (blks : Fin L → W16)
    (l : Fin L) :
    unpackLane L (xcompress L xs (xwkList L blks)) l =
      compress (unpackLane L xs l) (wkList (blks l)) := by
  unfold xcompress compress
  have hs : unpackLane L ((xwkList L blks).foldl (xround1 L) xs) l =
      (wkList (blks l)).foldl round1 (unpackLane L xs l) := by
    rw [xfold_lane, xwkList_lane]
  show summarize (unpackLane L ((xwkList L blks).foldl (xround1 L) xs) l)
    (unpackLane L xs l) = _
  rw [hs]

theorem xdouble_lane (L : Nat) (blks : Fin L → W16) (i : Fin L) :
    xdouble_hash_digest_blocks L blks i = double_hashW (blks i) := by
  have h1 : ∀ j : Fin L, unpackLane L (xcompress L (packState L initialState)
      (xwkList L blks)) j = compress initialState (wkList (blks j)) := by
    intro j
    rw [xcompress_lane_any]
    rfl
  have h2 : ∀ j : Fin L, unpackLane L (xcompress L
      (xcompress L (packState L initialState) (xwkList L blks))
      (xwkList L (fun _ => padW16 1))) j =
      compress (compress initialState (wkList (blks j)))
        (wkList (padW16 1)) := by
    intro j
    rw [xcompress_lane_any, h1]
  simp only [xdouble_hash_digest_blocks]
  rw [xcompress_lane_any]
  simp only [h2]
  rfl



theorem xbatch_eq_map (L : Nat) (ps : List (List Nat × List Nat))
    (h : ps.length = L) :
    xbatch L ps = ps.map pairDigest := by
  unfold xbatch
  subst h
  have hmap : ∀ i ∈ List.finRange ps.length,
      xdouble_hash_digest_blocks ps.length (packPairs ps.length ps) i =
        pairDigest (ps.get i) := by
    intro i hi
    rw [xdouble_lane]
    show double_hashW (toW16 ((ps.getD i ([], [])).1 ++
      (ps.getD i ([], [])).2)) = _
    rw [List.getD_eq_getElem ps ([], []) i.isLt]
    rfl
  rw [List.map_congr_left hmap]
  rw [show (fun i => pairDigest (ps.get i)) = pairDigest ∘ ps.get from rfl]
  rw [← List.map_map, List.finRange_map_get]

theorem chunked_level_eq (L : Nat) :
    ∀ (fuel : Nat) (ps : List (List Nat × List Nat)),
      chunked_level_fuel fuel L ps = ps.map pairDigest := by
  intro fuel
  induction fuel with
  | zero => intro ps; cases ps <;> rfl
  | succ k ih =>
      intro ps
      cases ps with
      | nil => rfl
      | cons p rest =>
          show (if 0 < L ∧ L ≤ (p :: rest).length then
            xbatch L ((p :: rest).take L) ++
              chunked_level_fuel k L ((p :: rest).drop L)
          else (p :: rest).map pairDigest) = _
          by_cases hc : 0 < L ∧ L ≤ (p :: rest).length
          · rw [if_pos hc, ih, xbatch_eq_map L _ (List.length_take_of_le hc.2)]
            rw [← List.map_append, List.take_append_drop]
          · rw [if_neg hc]

theorem merkle_hash_toPairs :
    ∀ ds : List (List Nat),
      merkle_hash_scalar ds = (toPairs ds).map pairDigest
  | [] => rfl
  | [_] => rfl
  | a :: b :: rest => by
      show double_hashHalves a b :: merkle_hash_scalar rest = _
      rw [merkle_hash_toPairs rest]
      rfl

theorem merkle_level_vec_eq (L : Nat) (ds : List (List Nat)) :
    merkle_level_vec L ds = merkle_hash_scalar ds := by
  rw [merkle_level_vec, chunked_level_eq, merkle_hash_toPairs]

theorem merkle_root_fuel_eq (L : Nat) :
    ∀ (fuel : Nat) (ds : List (List Nat)),
      merkle_root_vec_fuel L fuel ds = merkle_root_fuel fuel ds := by
  intro fuel
  induction fuel with
  | zero => intro ds; rcases ds with _ | ⟨a, _ | ⟨b, rest⟩⟩ <;> rfl
  | succ k ih =>
      intro ds
      rcases ds with _ | ⟨a, _ | ⟨b, rest⟩⟩
      · rfl
      · rfl
      · show merkle_root_vec_fuel L k
          (merkle_level_vec L (evenize (a :: b :: rest))) = _
        rw [merkle_level_vec_eq, ih]
        rfl

/-! ## Claim theorems C2, C3, C4, C5, C7 -/

/-- C2: hashing the single block consisting of byte 0x61 followed by
FIPS-standard padding through the 256-bit variant yields exactly the
published SHA-256 digest of the one-byte message 0x61. -/
theorem sha256_single_byte_known_answer :
    output (compress initialState (wkList (toW16 aPaddedBlock))) =
    [202, 151, 129, 18, 202, 27, 189, 202,
     250, 194, 49, 179, 154, 35, 220, 77,
     167, 134, 239, 248, 20, 124, 78, 114,
     185, 128, 119, 133, 175, 238, 72, 187] := by
  decide

/-- C3: on a fully expanded message schedule (the buffer has exactly rounds
entries), compress applies exactly rounds round transformations and then
adds the pre-round state to the post-round state word-wise. -/
theorem compress_is_rounds_then_davies_meyer (s : State8) (buf : List Nat)
    (h : buf.length = rounds) : compress s buf = specCompress s buf := by
  unfold compress specCompress
  rw [applyRounds_eq_foldl buf s rounds h]

/-- Witness for C3 at a concrete state and buffer. -/
theorem compress_is_rounds_then_davies_meyer_witness :
    (List.replicate 64 0).length = rounds ∧
    compress initialState (List.replicate 64 0) =
      specCompress initialState (List.replicate 64 0) :=
  ⟨by decide,
    compress_is_rounds_then_davies_meyer initialState
      (List.replicate 64 0) (by decide)⟩

/-- C4: for every supported input shape (single block, block sequence,
half block, half-block pair), the double hash equals the hash of the hash:
the inner digest is reinjected as the sole content of a half-block input,
re-padded and re-hashed. -/
theorem double_hash_eq_hash_of_hash :
    (∀ blk : List Nat, double_hashBlock blk = hashHalf (hashBlock blk)) ∧
    (∀ blks : List (List Nat),
      double_hashBlocks blks = hashHalf (hashBlocks blks)) ∧
    (∀ half : List Nat, double_hashHalf half = hashHalf (hashHalf half)) ∧
    (∀ l r : List Nat, double_hashHalves l r = hashHalf (hashHalves l r)) := by
  refine ⟨fun blk => ?_, fun blks => ?_, fun half => ?_, fun l r => ?_⟩
  · unfold double_hashBlock hashHalf hashBlock
    rw [halfW16_output, wrapS_compress]
  · unfold double_hashBlocks hashHalf hashBlocks
    rw [halfW16_output, wrapS_compress]
  · unfold double_hashHalf hashHalf
    rw [halfW16_output, wrapS_compress]
  · unfold double_hashHalves hashHalf hashHalves
    rw [halfW16_output, wrapS_compress]

/-- C5: for every block sequence, accumulating every block into the initial
state and then finalizing with the block count yields the same digest as the
one-shot hash over the same blocks. -/
theorem streaming_equals_one_shot (blks : List (List Nat)) :
    finalize (blks.foldl accumulate initialState) blks.length =
      hashBlocks blks := by
  unfold finalize hashBlocks
  rw [iterate_eq_foldl]

/-- C7: finalizing the accumulator twice without an intervening accumulate
yields the same digest both times; finalize computes from the accumulated
state and block count without advancing them. -/
theorem finalize_repeatable (acc : Accumulator) :
    (acc_finalize (acc_finalize acc).2).1 = (acc_finalize acc).1 := rfl

/-! ## Claim theorems C8, C9, C10 -/

/-- C1: for every state and every block, the three compression strategies
agree bit for bit: the native SHA-NI compression of the block (hash_shani),
the scalar compression of the scheduled block, and the vector compression
of the block replicated across all L lanes, reading back lane 0, all
produce the same resulting state, for every lane count L. -/
theorem engines_agree (s : State8) (blk : List Nat) (L : Nat) (hL : 0 < L) :
    hash_shani s blk = compress s (wkList (toW16 blk)) ∧
    unpackLane L (xcompress L (packState L s)
        (xwkList L (fun _ => toW16 blk))) ⟨0, hL⟩ =
      compress s (wkList (toW16 blk)) :=
  ⟨hash_shani_eq_scalar s blk,
   by rw [xcompress_lane L s (fun _ => toW16 blk) ⟨0, hL⟩]⟩

/-- Witness for C1 at a concrete state, block and lane count. -/
theorem engines_agree_witness :
    0 < 2 ∧
    (hash_shani initialState aPaddedBlock =
        compress initialState (wkList (toW16 aPaddedBlock)) ∧
      unpackLane 2 (xcompress 2 (packState 2 initialState)
          (xwkList 2 (fun _ => toW16 aPaddedBlock))) ⟨0, by decide⟩ =
        compress initialState (wkList (toW16 aPaddedBlock))) :=
  ⟨by decide, engines_agree initialState aPaddedBlock 2 (by decide)⟩

/-- C6: for every digest list (in particular every list of length 1 to 64)
and every lane batch size, merkle_root computed with vectorized lane-batched
pairing equals merkle_root computed by strictly pairwise scalar folding; the
result does not depend on the list length, the batching strategy or the
batching boundary. -/
theorem merkle_root_batching_invariant (L : Nat) (ds : List (List Nat)) :
    merkle_root_vec L ds = merkle_root_scalar ds :=
  merkle_root_fuel_eq L ds.length ds

/-- C8: the native-engine state layout permutations shuffle and unshuffle are
mutual inverses on every pair of 128-bit state halves, and both act purely by
reordering whole 32-bit register lanes (the words themselves are carried
unchanged, so no byte order inside a word is touched). -/
theorem shuffle_unshuffle_mutual_inverses :
    ∀ p : V4 × V4, unshuffle (shuffle p) = p ∧ shuffle (unshuffle p) = p := by
  intro ⟨⟨a0, a1, a2, a3⟩, ⟨b0, b1, b2, b3⟩⟩
  exact ⟨rfl, rfl⟩

/-- C9 counterexample: with every vector capability enabled and 4-byte words,
min_lanes as written in the source yields 4 (it tests the narrowest, 128-bit,
capability first), not the 16 lanes the widest (512-bit) capability would
give, so the dispatch threshold is not determined by the widest enabled
capability. -/
theorem min_lanes_counterexample :
    min_lanes true true true 4 = 4 ∧
    min_lanes_by_widest true true true 4 = 16 ∧
    ¬ min_lanes true true true 4 = min_lanes_by_widest true true true 4 := by
  decide

/-- C9 amended: the vector engine lane batch size is always one of
{2, 4, 8, 16} whenever some vector capability is enabled and the word width
is 4 or 8 bytes, and the minimum-lanes dispatch threshold is determined by
the narrowest enabled vector capability among the 128/256/512-bit
extensions. -/
theorem min_lanes_narrowest_and_valid (x128 x256 x512 : Bool)
    (word_bytes : Nat) (hw : word_bytes = 4 ∨ word_bytes = 8)
    (hen : (x128 || x256 || x512) = true) :
    is_valid_lanes (min_lanes x128 x256 x512 word_bytes) = true ∧
    min_lanes x128 x256 x512 word_bytes =
      min_lanes_by_narrowest x128 x256 x512 word_bytes := by
  rcases hw with rfl | rfl <;>
    cases x128 <;> cases x256 <;> cases x512 <;> revert hen <;> decide

/-- Witness for the C9 amended theorem at a concrete capability set. -/
theorem min_lanes_narrowest_and_valid_witness :
    ((4 = 4 ∨ 4 = 8) ∧ (true || false || false) = true) ∧
    (is_valid_lanes (min_lanes true false false 4) = true ∧
      min_lanes true false false 4 =
        min_lanes_by_narrowest true false false 4) :=
  ⟨⟨Or.inl rfl, by decide⟩,
    min_lanes_narrowest_and_valid true false false 4 (Or.inl rfl) (by decide)⟩

/-- C10: for the 32-bit-word variants (block of 16 four-byte words) the
counter is 64 bits wide with maximum 2^64 - 1, for the 64-bit-word variant
(16 eight-byte words) it is 128 bits wide with maximum 2^128 - 1; in both
cases count_bits = block_words * word_bytes, the limit on hashable bit
length is the counter maximum minus count_bits, and limit_bytes is its
floored byte equivalent. -/
theorem counter_width_and_limits :
    count_bits 16 4 = 64 ∧
    count_bits 16 8 = 128 ∧
    count_t_max 16 4 = 2 ^ 64 - 1 ∧
    count_t_max 16 8 = 2 ^ 128 - 1 ∧
    limit_bits 16 4 = (2 ^ 64 - 1) - 64 ∧
    limit_bits 16 8 = (2 ^ 128 - 1) - 128 ∧
    limit_bytes 16 4 = ((2 ^ 64 - 1) - 64) / 8 ∧
    limit_bytes 16 8 = ((2 ^ 128 - 1) - 128) / 8 := by
  refine ⟨rfl, rfl, rfl, rfl, rfl, rfl, rfl, rfl⟩

end LibbitcoinSha
